import Mathlib

/-
Verification of the event-taxonomy / filter / handler-lifetime subsystem
(src/ignite/engine/events.py) against its natural-language specification.

Shallow embedding conventions:
* Python `None`-able arguments become `Option`.
* Python exceptions become `Except IgniteError`.
* Counters are `Int` (Python ints; `%` with a positive divisor agrees with
  Lean `Int.emod`, whose result carries the sign of the divisor, exactly
  like Python `%`).
* The opaque engine object passed to filter predicates is abstracted as a
  `Nat` handle (`EngineCtx`); every filter built by the source ignores it.
* Python's `hash` of a string is abstracted by Lean's `hash : String → UInt64`;
  only equality of hashes is ever claimed.
-/

/-- Error taxonomy of the subsystem (spec section 7).
`InvalidArgument` embeds Python `ValueError`, `InvalidCallable` embeds
`TypeError`, `UnknownEvent` embeds the `RuntimeError` of
`State.get_event_attrib_value`, and `IncomparableType` embeds the
`NotImplementedError` raised by `CallableEventWithFilter.__eq__`. -/
inductive IgniteError where
  | InvalidArgument (msg : String)
  | InvalidCallable (msg : String)
  | UnknownEvent (msg : String)
  | IncomparableType
  deriving DecidableEq, Repr

/-- Opaque handle standing for the engine object handed to filter predicates. -/
abbrev EngineCtx := Nat

/-- The type of event-filter predicates: `(engine, event_counter) -> bool`. -/
abbrev FilterFn := EngineCtx → Int → Bool

/-- Structure `CallableEventWithFilter`: an event kind (its enum `_value_` and `_name_`
strings) together with an attached filter predicate
(src/ignite/engine/events.py lines 13-131). -/
structure CallableEventWithFilter where
  value : String
  filter : FilterFn
  name : String

namespace CallableEventWithFilter

/-- Function `default_event_filter` (lines 111-113): always `True`. -/
def default_event_filter : FilterFn := fun _engine _event => true

/-- Constructor `__init__` (lines 26-35): a `None` filter is replaced by the default
always-true filter; value and name are stored as given. -/
def init (value : String) (event_filter : Option FilterFn) (name : String) :
    CallableEventWithFilter :=
  ⟨value, event_filter.getD default_event_filter, name⟩

/-- Function `every_event_filter` (lines 93-100): `True` iff `event % every == 0`. -/
def every_event_filter (every : Int) : FilterFn :=
  fun _engine event => if event % every == 0 then true else false

/-- Function `once_event_filter` (lines 102-109): `True` iff `event == once`. -/
def once_event_filter (once : Int) : FilterFn :=
  fun _engine event => if event == once then true else false

/-- Method `__call__` (lines 48-91).  Notes on the embedding:
* the guard is the source's `not (a ^ b ^ c)` — a triple XOR, kept verbatim;
* `callable(event_filter)` and `_check_signature` always succeed here because
  `FilterFn` is a total function type of the required arity;
* `isinstance(..., numbers.Integral)` always succeeds because `every`/`once`
  are typed `Option Int`. -/
def call (self : CallableEventWithFilter) (event_filter : Option FilterFn)
    (every : Option Int) (once : Option Int) :
    Except IgniteError CallableEventWithFilter :=
  if !((event_filter.isSome ^^ every.isSome) ^^ once.isSome) then
    .error (.InvalidArgument "Only one of the input arguments should be specified")
  else if every.isSome && !(decide (0 < every.getD 0)) then
    .error (.InvalidArgument "Argument every should be integer and greater than zero")
  else if once.isSome && !(decide (0 < once.getD 0)) then
    .error (.InvalidArgument "Argument every should be integer and positive")
  else
    let ef1 : Option FilterFn :=
      match every with
      | some e => if e == 1 then none else some (every_event_filter e)
      | none => event_filter
    let ef2 : Option FilterFn :=
      match once with
      | some o => some (once_event_filter o)
      | none => ef1
    .ok (init self.value ef2 self.name)

/-- The Python values an event can be compared against in `__eq__`:
another event-like object, a string, or anything else (tagged by its
type name). -/
inductive PyValue where
  | event (e : CallableEventWithFilter)
  | str (s : String)
  | other (typeName : String)

/-- Method `__eq__` (lines 118-124): name comparison against events and strings,
`raise NotImplementedError` otherwise. -/
def eq (self : CallableEventWithFilter) (other : PyValue) :
    Except IgniteError Bool :=
  match other with
  | .event o => .ok (self.name == o.name)
  | .str s => .ok (self.name == s)
  | .other _ => .error .IncomparableType

/-- Method `__hash__` (lines 126-127): `hash(self._name_)`. -/
def hashVal (self : CallableEventWithFilter) : UInt64 :=
  hash self.name

end CallableEventWithFilter

/-- The nine members of the `Events` enum (lines 171-182). -/
inductive EventTag where
  | EPOCH_STARTED
  | EPOCH_COMPLETED
  | STARTED
  | COMPLETED
  | ITERATION_STARTED
  | ITERATION_COMPLETED
  | EXCEPTION_RAISED
  | GET_BATCH_STARTED
  | GET_BATCH_COMPLETED
  deriving DecidableEq, Repr

namespace Events

/-- Each `Events` member as a `CallableEventWithFilter` value: enum value
string, default (always-true) filter, enum name string. -/
def member : EventTag → CallableEventWithFilter
  | .EPOCH_STARTED => .init "epoch_started" none "EPOCH_STARTED"
  | .EPOCH_COMPLETED => .init "epoch_completed" none "EPOCH_COMPLETED"
  | .STARTED => .init "started" none "STARTED"
  | .COMPLETED => .init "completed" none "COMPLETED"
  | .ITERATION_STARTED => .init "iteration_started" none "ITERATION_STARTED"
  | .ITERATION_COMPLETED => .init "iteration_completed" none "ITERATION_COMPLETED"
  | .EXCEPTION_RAISED => .init "exception_raised" none "EXCEPTION_RAISED"
  | .GET_BATCH_STARTED => .init "get_batch_started" none "GET_BATCH_STARTED"
  | .GET_BATCH_COMPLETED => .init "get_batch_completed" none "GET_BATCH_COMPLETED"

def EPOCH_STARTED : CallableEventWithFilter := member .EPOCH_STARTED
def EPOCH_COMPLETED : CallableEventWithFilter := member .EPOCH_COMPLETED
def STARTED : CallableEventWithFilter := member .STARTED
def COMPLETED : CallableEventWithFilter := member .COMPLETED
def ITERATION_STARTED : CallableEventWithFilter := member .ITERATION_STARTED
def ITERATION_COMPLETED : CallableEventWithFilter := member .ITERATION_COMPLETED
def EXCEPTION_RAISED : CallableEventWithFilter := member .EXCEPTION_RAISED
def GET_BATCH_STARTED : CallableEventWithFilter := member .GET_BATCH_STARTED
def GET_BATCH_COMPLETED : CallableEventWithFilter := member .GET_BATCH_COMPLETED

end Events

namespace EventsList

/-- The Python values that can be appended to an `EventsList` via `__or__`:
an event (an `Events` member or a `CallableEventWithFilter`), or any other
value (tagged by its type name), which `_append` rejects. -/
inductive AppendArg where
  | event (e : CallableEventWithFilter)
  | nonEvent (typeName : String)

/-- Method `EventsList._append` (lines 215-218) together with the list append it
performs: events are appended, anything else raises `ValueError`. -/
def appendArg (self : List CallableEventWithFilter) (a : AppendArg) :
    Except IgniteError (List CallableEventWithFilter) :=
  match a with
  | .event e => .ok (self ++ [e])
  | .nonEvent ty =>
      .error (.InvalidArgument
        ("Argument event should be Events or CallableEventWithFilter, got: " ++ ty))

/-- Method `EventsList.__or__` (lines 229-231): append and return the list. -/
def orOp (self : List CallableEventWithFilter) (a : AppendArg) :
    Except IgniteError (List CallableEventWithFilter) :=
  appendArg self a

end EventsList

/-- Methods `CallableEventWithFilter.__or__` and `Events.__or__` (lines 129-130 and
184-185): `EventsList() | self | other`. -/
def CallableEventWithFilter.orOp (self : CallableEventWithFilter)
    (other : EventsList.AppendArg) :
    Except IgniteError (List CallableEventWithFilter) := do
  let l1 ← EventsList.orOp [] (.event self)
  EventsList.orOp l1 other

/-- Structure `State` (lines 234-295), restricted to the fields reachable from
`get_event_attrib_value`: the values of `event_to_attr` are only
"iteration" and "epoch", so those two counter fields are embedded; the
remaining fields (batch, output, metrics, dataloader, ...) are opaque to
every claim about this type. -/
structure State where
  iteration : Int
  epoch : Int

/-- Mapping `State.event_to_attr` (lines 254-263): the dict from `Events` members
to attribute names, in source order. -/
def State.event_to_attr : List (CallableEventWithFilter × String) :=
  [(Events.GET_BATCH_STARTED, "iteration"),
   (Events.GET_BATCH_COMPLETED, "iteration"),
   (Events.ITERATION_STARTED, "iteration"),
   (Events.ITERATION_COMPLETED, "iteration"),
   (Events.EPOCH_STARTED, "epoch"),
   (Events.EPOCH_COMPLETED, "epoch"),
   (Events.STARTED, "epoch"),
   (Events.COMPLETED, "epoch")]

/-- Python `dict` membership/lookup keyed by events: `__hash__` and
`__eq__` of `CallableEventWithFilter` hash and compare the `_name_` string
alone, so the dict keys on the kind name. -/
def dictLookupByName (d : List (CallableEventWithFilter × String))
    (k : CallableEventWithFilter) : Option String :=
  (d.find? (fun p => p.1.name == k.name)).map (fun p => p.2)

/-- Built-in `getattr(self, attr)` restricted to the attribute names that occur as
values of `event_to_attr`. -/
def State.getattr (s : State) (attr : String) : Int :=
  if attr == "iteration" then s.iteration
  else if attr == "epoch" then s.epoch
  else 0

/-- Method `State.get_event_attrib_value` (lines 284-287): dict membership test,
`RuntimeError` when absent, attribute read when present. -/
def State.get_event_attrib_value (s : State)
    (event_name : CallableEventWithFilter) : Except IgniteError Int :=
  match dictLookupByName State.event_to_attr event_name with
  | none => .error (.UnknownEvent event_name.name)
  | some attr => .ok (s.getattr attr)

/-- Modelled from the spec: the external Engine collaborator is code of
this repository that is not under src/; spec section 6 fixes its required
surface as `has_event_handler(handler, event) -> bool` and
`remove_event_handler(handler, event) -> None` over its registered
(handler, event) pairs.  Handlers are abstracted as `Nat` identifiers;
events are compared by kind name, consistent with their name-based
`__eq__`/`__hash__`. -/
structure Engine where
  handlers : List (Nat × CallableEventWithFilter)

/-- Modelled from the spec: `has_event_handler(handler, event)` — whether
this (handler, event) pair is currently registered. -/
def Engine.has_event_handler (eng : Engine) (handler : Nat)
    (event : CallableEventWithFilter) : Bool :=
  eng.handlers.any (fun p => p.1 == handler && p.2.name == event.name)

/-- Modelled from the spec: `remove_event_handler(handler, event)` — drop
every registration of this handler for this event. -/
def Engine.remove_event_handler (eng : Engine) (handler : Nat)
    (event : CallableEventWithFilter) : Engine :=
  ⟨eng.handlers.filter (fun p => !(p.1 == handler && p.2.name == event.name))⟩

/-- The `event_name` stored in a `RemovableEventHandle`: either a single
event or an `EventsList`. -/
inductive EventIdentity where
  | single (e : CallableEventWithFilter)
  | group (l : List CallableEventWithFilter)

/-- Structure `RemovableEventHandle` (lines 298-352): the weak reference to the
handler is embedded as `Option Nat` (`none` = collected) and the weak
reference to the engine as a liveness flag (the engine's state, when
alive, is passed to `remove` explicitly). -/
structure RemovableEventHandle where
  event_name : EventIdentity
  handler : Option Nat
  engine_alive : Bool

/-- One check-then-remove step of `RemovableEventHandle.remove` (lines
340-346), threading the engine state and logging every invocation of the
engine's `remove_event_handler`. -/
def checkRemove (handler : Nat)
    (acc : Engine × List (Nat × CallableEventWithFilter))
    (e : CallableEventWithFilter) :
    Engine × List (Nat × CallableEventWithFilter) :=
  if acc.1.has_event_handler handler e then
    (acc.1.remove_event_handler handler e, acc.2 ++ [(handler, e)])
  else acc

/-- Method `RemovableEventHandle.remove` (lines 332-346): resolve both weak
references; silently do nothing when either is dead; otherwise
check-then-remove each member of a group in order, or the single event.
Returns the resulting engine state together with the log of
`remove_event_handler` invocations performed. -/
def RemovableEventHandle.remove (h : RemovableEventHandle) (eng : Engine) :
    Engine × List (Nat × CallableEventWithFilter) :=
  match h.handler, h.engine_alive with
  | none, _ => (eng, [])
  | some _, false => (eng, [])
  | some hd, true =>
    match h.event_name with
    | .single e => checkRemove hd (eng, []) e
    | .group l => l.foldl (checkRemove hd) (eng, [])

/-- A sample state (iteration 7, epoch 3) used in witnesses. -/
def stateA : State := ⟨7, 3⟩

/-- A sample engine with one registration, used in witnesses. -/
def engineA : Engine := ⟨[(1, Events.STARTED)]⟩

/-- A handle whose weakly-held handler has been collected. -/
def deadHandle : RemovableEventHandle := ⟨.single Events.STARTED, none, true⟩

/-- A live handle on the single event `STARTED` for handler 1. -/
def liveHandle : RemovableEventHandle := ⟨.single Events.STARTED, some 1, true⟩

namespace CallableEventWithFilter

/-- Reduction of `call` when only `every` is supplied with `every > 1`. -/
theorem call_every_gt_one (self : CallableEventWithFilter) (n : Int) (hn : 1 < n) :
    self.call none (some n) none =
      .ok ⟨self.value, every_event_filter n, self.name⟩ := by
  have h0 : (0:Int) < n := by omega
  have h1 : (n == 1) = false := by simp; omega
  simp [call, init, h0, h1]

/-- Reduction of `call` when only `every = 1` is supplied: the result carries
the default always-true filter. -/
theorem call_every_one (self : CallableEventWithFilter) :
    self.call none (some 1) none =
      .ok ⟨self.value, default_event_filter, self.name⟩ := by
  simp [call, init]

/-- Reduction of `call` when only `once` is supplied with `once > 0`. -/
theorem call_once_pos (self : CallableEventWithFilter) (m : Int) (hm : 0 < m) :
    self.call none none (some m) =
      .ok ⟨self.value, once_event_filter m, self.name⟩ := by
  simp [call, init, hm]

end CallableEventWithFilter

/-- Claim C2: for every integer `n > 1`, the event built with `every = n`
has a filter returning true exactly on counters divisible by `n`
(`counter % n == 0`), and building with `every = 1` yields an unfiltered
variant of the base kind whose filter returns true on every
(engine, counter) pair. -/
theorem claim_C2 (e : CallableEventWithFilter) (n : Int) (hn : 1 < n) :
    (∃ e', e.call none (some n) none = .ok e' ∧
      e'.name = e.name ∧ e'.value = e.value ∧
      ∀ (g : EngineCtx) (c : Int), (e'.filter g c = true ↔ c % n = 0)) ∧
    (∃ e1, e.call none (some 1) none = .ok e1 ∧
      e1.name = e.name ∧ e1.value = e.value ∧
      ∀ (g : EngineCtx) (c : Int), e1.filter g c = true) := by
  constructor
  · exact ⟨_, e.call_every_gt_one n hn, rfl, rfl, by
      intro g c
      simp [CallableEventWithFilter.every_event_filter]⟩
  · exact ⟨_, e.call_every_one, rfl, rfl, fun _ _ => rfl⟩

/-- Witness for claim C2 at `n = 3` on `ITERATION_STARTED`. -/
theorem claim_C2_witness :
    (∃ e', Events.ITERATION_STARTED.call none (some 3) none = .ok e' ∧
      e'.name = Events.ITERATION_STARTED.name ∧
      e'.value = Events.ITERATION_STARTED.value ∧
      ∀ (g : EngineCtx) (c : Int), (e'.filter g c = true ↔ c % 3 = 0)) ∧
    (∃ e1, Events.ITERATION_STARTED.call none (some 1) none = .ok e1 ∧
      e1.name = Events.ITERATION_STARTED.name ∧
      e1.value = Events.ITERATION_STARTED.value ∧
      ∀ (g : EngineCtx) (c : Int), e1.filter g c = true) :=
  claim_C2 Events.ITERATION_STARTED 3 (by decide)

/-- Claim C3: for every positive integer `m`, the event built with
`once = m` has a filter returning true for counter `m` and false for every
other counter, below or above `m`. -/
theorem claim_C3 (e : CallableEventWithFilter) (m : Int) (hm : 0 < m) :
    ∃ e', e.call none none (some m) = .ok e' ∧
      e'.name = e.name ∧ e'.value = e.value ∧
      ∀ (g : EngineCtx) (c : Int), (e'.filter g c = true ↔ c = m) := by
  refine ⟨_, e.call_once_pos m hm, rfl, rfl, ?_⟩
  intro g c
  simp [CallableEventWithFilter.once_event_filter]

/-- Witness for claim C3 at `m = 5` on `EPOCH_COMPLETED`. -/
theorem claim_C3_witness :
    ∃ e', Events.EPOCH_COMPLETED.call none none (some 5) = .ok e' ∧
      e'.name = Events.EPOCH_COMPLETED.name ∧
      e'.value = Events.EPOCH_COMPLETED.value ∧
      ∀ (g : EngineCtx) (c : Int), (e'.filter g c = true ↔ c = 5) :=
  claim_C3 Events.EPOCH_COMPLETED 5 (by decide)

/-- Claim C4: two filtered variants of the same kind compare equal and hash
identically whatever their filters; events of different kinds never compare
equal, whatever the filters attached to either. -/
theorem claim_C4 (e a b : CallableEventWithFilter) (f1 f2 : FilterFn)
    (hne : a.name ≠ b.name) :
    CallableEventWithFilter.eq ⟨e.value, f1, e.name⟩
        (.event ⟨e.value, f2, e.name⟩) = .ok true ∧
    CallableEventWithFilter.hashVal ⟨e.value, f1, e.name⟩ =
      CallableEventWithFilter.hashVal ⟨e.value, f2, e.name⟩ ∧
    CallableEventWithFilter.eq a (.event b) = .ok false ∧
    CallableEventWithFilter.eq b (.event a) = .ok false := by
  refine ⟨?_, rfl, ?_, ?_⟩
  · simp [CallableEventWithFilter.eq]
  · simp [CallableEventWithFilter.eq, hne]
  · simp [CallableEventWithFilter.eq, Ne.symm hne]

/-- Witness for claim C4: `EPOCH_STARTED` variants with an every-2 and a
once-5 filter, against the distinct kinds `STARTED` and `COMPLETED`. -/
theorem claim_C4_witness :
    CallableEventWithFilter.eq
        ⟨Events.EPOCH_STARTED.value, CallableEventWithFilter.every_event_filter 2,
          Events.EPOCH_STARTED.name⟩
        (.event ⟨Events.EPOCH_STARTED.value,
          CallableEventWithFilter.once_event_filter 5, Events.EPOCH_STARTED.name⟩) =
      .ok true ∧
    CallableEventWithFilter.hashVal
        ⟨Events.EPOCH_STARTED.value, CallableEventWithFilter.every_event_filter 2,
          Events.EPOCH_STARTED.name⟩ =
      CallableEventWithFilter.hashVal
        ⟨Events.EPOCH_STARTED.value, CallableEventWithFilter.once_event_filter 5,
          Events.EPOCH_STARTED.name⟩ ∧
    CallableEventWithFilter.eq Events.STARTED (.event Events.COMPLETED) = .ok false ∧
    CallableEventWithFilter.eq Events.COMPLETED (.event Events.STARTED) = .ok false :=
  claim_C4 Events.EPOCH_STARTED Events.STARTED Events.COMPLETED
    (CallableEventWithFilter.every_event_filter 2)
    (CallableEventWithFilter.once_event_filter 5) (by decide)

/-- Claim C8: comparing an event against a value that is neither event-like
nor a string raises `IncomparableType` (never returns false); comparing
against a string compares the string with the event's kind name. -/
theorem claim_C8 (e : CallableEventWithFilter) :
    (∀ ty : String, e.eq (.other ty) = .error .IncomparableType) ∧
    (∀ s : String, e.eq (.str s) = .ok (e.name == s)) ∧
    (∀ s : String, (e.eq (.str s) = .ok true ↔ e.name = s)) := by
  refine ⟨fun _ => rfl, fun _ => rfl, fun s => ?_⟩
  simp [CallableEventWithFilter.eq]

/-- Claim C10: a member equals a string exactly when the string is the
member's enum NAME; in particular no member equals its value string (the
lower-case form), since name and value always differ. -/
theorem claim_C10 (t : EventTag) :
    (∀ s : String,
      ((Events.member t).eq (.str s) = .ok true ↔ s = (Events.member t).name)) ∧
    (Events.member t).eq (.str (Events.member t).value) = .ok false := by
  constructor
  · intro s
    rw [show (Events.member t).eq (.str s) = .ok ((Events.member t).name == s) from rfl]
    simp only [Except.ok.injEq, beq_iff_eq]
    exact comm
  · cases t <;> rfl

/-- Claim C1 (behaviour at the claimed inputs): the guard in `__call__` is
`not (a ^ b ^ c)` — a triple XOR — so supplying exactly two of
{event_filter, every, once} or none of them raises `InvalidArgument`, and
supplying exactly one succeeds, but supplying ALL THREE simultaneously
passes the guard (`True ^ True ^ True = True`) and succeeds, returning the
once-filtered event, contradicting the source's own error message "Only
one of the input arguments should be specified". -/
theorem claim_C1_all_three_accepted :
    Events.ITERATION_STARTED.call
        (some CallableEventWithFilter.default_event_filter) (some 2) (some 3) =
      .ok ⟨"iteration_started", CallableEventWithFilter.once_event_filter 3,
        "ITERATION_STARTED"⟩ ∧
    (∃ msg, Events.ITERATION_STARTED.call
        (some CallableEventWithFilter.default_event_filter) (some 2) none =
      .error (.InvalidArgument msg)) ∧
    (∃ msg, Events.ITERATION_STARTED.call
        (some CallableEventWithFilter.default_event_filter) none (some 3) =
      .error (.InvalidArgument msg)) ∧
    (∃ msg, Events.ITERATION_STARTED.call none (some 2) (some 3) =
      .error (.InvalidArgument msg)) ∧
    (∃ msg, Events.ITERATION_STARTED.call none none none =
      .error (.InvalidArgument msg)) ∧
    (∃ e', Events.ITERATION_STARTED.call none (some 2) none = .ok e') :=
  ⟨rfl, ⟨_, rfl⟩, ⟨_, rfl⟩, ⟨_, rfl⟩, ⟨_, rfl⟩, ⟨_, rfl⟩⟩

/-- Claim C6: `get_event_attrib_value EPOCH_STARTED` returns the state's
`epoch` field; `EXCEPTION_RAISED`, and any event absent from
`event_to_attr`, fails with `UnknownEvent`. -/
theorem claim_C6 (s : State) :
    s.get_event_attrib_value Events.EPOCH_STARTED = .ok s.epoch ∧
    (∃ msg, s.get_event_attrib_value Events.EXCEPTION_RAISED =
      .error (.UnknownEvent msg)) ∧
    (∀ e : CallableEventWithFilter,
      dictLookupByName State.event_to_attr e = none →
      ∃ msg, s.get_event_attrib_value e = .error (.UnknownEvent msg)) := by
  refine ⟨rfl, ⟨_, rfl⟩, fun e he => ⟨e.name, ?_⟩⟩
  simp [State.get_event_attrib_value, he]

/-- Witness for claim C6 at the state (iteration 7, epoch 3). -/
theorem claim_C6_witness :
    stateA.get_event_attrib_value Events.EPOCH_STARTED = .ok 3 ∧
    (∃ msg, stateA.get_event_attrib_value Events.EXCEPTION_RAISED =
      .error (.UnknownEvent msg)) ∧
    (∃ msg, stateA.get_event_attrib_value Events.EXCEPTION_RAISED =
      .error (.UnknownEvent msg)) :=
  ⟨(claim_C6 stateA).1, (claim_C6 stateA).2.1,
    (claim_C6 stateA).2.2 Events.EXCEPTION_RAISED rfl⟩

/-- Claim C7: the left-associative combination `A | B | C` yields a group
of length 3, reading and iterating as `[A, B, C]`, whatever events the
three are; appending a non-event value fails with `InvalidArgument`. -/
theorem claim_C7 (a b c : CallableEventWithFilter) :
    (∃ g : List CallableEventWithFilter,
      (do
        let l1 ← a.orOp (.event b)
        EventsList.orOp l1 (.event c)) = .ok g ∧
      g = [a, b, c] ∧ g.length = 3 ∧
      g[0]? = some a ∧ g[1]? = some b ∧ g[2]? = some c) ∧
    (∀ (l : List CallableEventWithFilter) (ty : String),
      ∃ msg, EventsList.appendArg l (.nonEvent ty) =
        .error (.InvalidArgument msg)) :=
  ⟨⟨[a, b, c], rfl, rfl, rfl, rfl, rfl, rfl⟩, fun _ _ => ⟨_, rfl⟩⟩

namespace CallableEventWithFilter

/-- A successful `call` preserves the kind's name and value: the returned
event is built as `CallableEventWithFilter(self.value, filt, self.name)`. -/
theorem call_name_value (self : CallableEventWithFilter)
    (ef : Option FilterFn) (ev onc : Option Int) (e' : CallableEventWithFilter)
    (h : self.call ef ev onc = .ok e') :
    e'.name = self.name ∧ e'.value = self.value := by
  unfold call at h
  split at h
  · exact absurd h (by simp)
  · split at h
    · exact absurd h (by simp)
    · split at h
      · exact absurd h (by simp)
      · cases h
        exact ⟨rfl, rfl⟩

end CallableEventWithFilter

/-- Lookup lemma: `get_event_attrib_value` depends only on the event's kind name. -/
theorem get_event_attrib_value_name_eq (s : State)
    (a b : CallableEventWithFilter) (h : a.name = b.name) :
    s.get_event_attrib_value a = s.get_event_attrib_value b := by
  unfold State.get_event_attrib_value dictLookupByName
  rw [h]

/-- Claim C9: attaching any filter to an event never changes which state
field `get_event_attrib_value` reads — both for a variant with the filter
field replaced outright and for every variant produced by a successful
`__call__`. -/
theorem claim_C9 (s : State) (e : CallableEventWithFilter) (f : FilterFn) :
    s.get_event_attrib_value ⟨e.value, f, e.name⟩ = s.get_event_attrib_value e ∧
    (∀ (ef : Option FilterFn) (ev onc : Option Int)
      (e' : CallableEventWithFilter),
      e.call ef ev onc = .ok e' →
      s.get_event_attrib_value e' = s.get_event_attrib_value e) := by
  refine ⟨get_event_attrib_value_name_eq s _ e rfl, fun ef ev onc e' h => ?_⟩
  exact get_event_attrib_value_name_eq s e' e
    (CallableEventWithFilter.call_name_value e ef ev onc e' h).1

/-- Witness for claim C9: an every-2 variant of `EPOCH_STARTED` reads the
same counter as the plain kind on the sample state. -/
theorem claim_C9_witness :
    stateA.get_event_attrib_value
        ⟨Events.EPOCH_STARTED.value, CallableEventWithFilter.every_event_filter 2,
          Events.EPOCH_STARTED.name⟩ =
      stateA.get_event_attrib_value Events.EPOCH_STARTED ∧
    stateA.get_event_attrib_value
        ⟨"epoch_started", CallableEventWithFilter.every_event_filter 2,
          "EPOCH_STARTED"⟩ =
      stateA.get_event_attrib_value Events.EPOCH_STARTED :=
  ⟨(claim_C9 stateA Events.EPOCH_STARTED
      (CallableEventWithFilter.every_event_filter 2)).1,
    (claim_C9 stateA Events.EPOCH_STARTED
      CallableEventWithFilter.default_event_filter).2 none (some 2) none
      ⟨"epoch_started", CallableEventWithFilter.every_event_filter 2,
        "EPOCH_STARTED"⟩ rfl⟩

/-- If a predicate holds somewhere on a filtered list, it holds somewhere
on the unfiltered list. -/
theorem any_of_any_filter {α : Type} (p q : α → Bool) (l : List α)
    (h : (l.filter q).any p = true) : l.any p = true := by
  rcases List.any_eq_true.mp h with ⟨a, ha, hpa⟩
  exact List.any_eq_true.mpr ⟨a, (List.mem_filter.mp ha).1, hpa⟩

/-- Monotonicity: `remove_event_handler` only removes registrations: a query answered
true afterwards was answered true before. -/
theorem has_mono_remove (eng : Engine) (hd hd' : Nat)
    (e e' : CallableEventWithFilter)
    (h : (eng.remove_event_handler hd' e').has_event_handler hd e = true) :
    eng.has_event_handler hd e = true :=
  any_of_any_filter _ _ _ h

/-- After `remove_event_handler hd e`, the query for (hd, e) answers false. -/
theorem has_after_remove_self (eng : Engine) (hd : Nat)
    (e : CallableEventWithFilter) :
    (eng.remove_event_handler hd e).has_event_handler hd e = false := by
  rw [Bool.eq_false_iff]
  intro h
  rcases List.any_eq_true.mp h with ⟨a, ha, hpa⟩
  have hq := (List.mem_filter.mp ha).2
  rw [hpa] at hq
  exact Bool.false_ne_true hq

/-- A single `checkRemove` step never makes a false query true. -/
theorem checkRemove_preserves_false (hd : Nat)
    (acc : Engine × List (Nat × CallableEventWithFilter))
    (x e : CallableEventWithFilter)
    (h : acc.1.has_event_handler hd e = false) :
    (checkRemove hd acc x).1.has_event_handler hd e = false := by
  unfold checkRemove
  by_cases hx : acc.1.has_event_handler hd x = true
  · rw [if_pos hx]
    rw [Bool.eq_false_iff]
    intro htrue
    have := has_mono_remove _ _ _ _ _ htrue
    rw [h] at this
    exact Bool.false_ne_true this
  · rw [if_neg hx]
    exact h

/-- The fold of `checkRemove` never makes a false query true. -/
theorem foldl_checkRemove_preserves_false (hd : Nat)
    (l : List CallableEventWithFilter) :
    ∀ (acc : Engine × List (Nat × CallableEventWithFilter))
      (e : CallableEventWithFilter),
      acc.1.has_event_handler hd e = false →
      (l.foldl (checkRemove hd) acc).1.has_event_handler hd e = false := by
  induction l with
  | nil => intro acc e h; exact h
  | cons x xs ih =>
    intro acc e h
    rw [List.foldl_cons]
    exact ih _ e (checkRemove_preserves_false hd acc x e h)

/-- After folding `checkRemove` over a list of events, no event of the
list still has the handler registered. -/
theorem foldl_checkRemove_clears (hd : Nat)
    (l : List CallableEventWithFilter) :
    ∀ (acc : Engine × List (Nat × CallableEventWithFilter)),
      ∀ e ∈ l, (l.foldl (checkRemove hd) acc).1.has_event_handler hd e = false := by
  induction l with
  | nil => intro acc e he; exact absurd he (List.not_mem_nil e)
  | cons x xs ih =>
    intro acc e he
    rw [List.foldl_cons]
    rcases List.mem_cons.mp he with rfl | hmem
    · apply foldl_checkRemove_preserves_false
      unfold checkRemove
      by_cases hx : acc.1.has_event_handler hd e = true
      · rw [if_pos hx]
        exact has_after_remove_self _ _ _
      · rw [if_neg hx]
        exact Bool.eq_false_iff.mpr hx
    · exact ih _ e hmem

/-- Folding `checkRemove` over events for which the query already answers
false is a complete no-op: engine unchanged, nothing logged. -/
theorem foldl_checkRemove_noop (hd : Nat)
    (l : List CallableEventWithFilter) :
    ∀ (acc : Engine × List (Nat × CallableEventWithFilter)),
      (∀ e ∈ l, acc.1.has_event_handler hd e = false) →
      l.foldl (checkRemove hd) acc = acc := by
  induction l with
  | nil => intro acc _; rfl
  | cons x xs ih =>
    intro acc h
    rw [List.foldl_cons]
    have hx : acc.1.has_event_handler hd x = false := h x (List.mem_cons_self x xs)
    have hstep : checkRemove hd acc x = acc := by
      unfold checkRemove
      rw [if_neg (by rw [hx]; exact Bool.false_ne_true)]
    rw [hstep]
    exact ih acc (fun e he => h e (List.mem_cons_of_mem x he))

/-- Every entry the fold adds to the log names the resolved handler and an
event for which the initial engine's query answered true. -/
theorem foldl_checkRemove_log (hd : Nat)
    (l : List CallableEventWithFilter) :
    ∀ (acc : Engine × List (Nat × CallableEventWithFilter)),
      ∀ entry ∈ (l.foldl (checkRemove hd) acc).2,
        entry ∈ acc.2 ∨
          (entry.1 = hd ∧ acc.1.has_event_handler hd entry.2 = true) := by
  induction l with
  | nil => intro acc entry he; exact Or.inl he
  | cons x xs ih =>
    intro acc entry he
    rw [List.foldl_cons] at he
    rcases ih (checkRemove hd acc x) entry he with hin | ⟨h1, h2⟩
    · unfold checkRemove at hin
      by_cases hx : acc.1.has_event_handler hd x = true
      · rw [if_pos hx] at hin
        rcases List.mem_append.mp hin with hmem | hmem
        · exact Or.inl hmem
        · rcases List.mem_singleton.mp hmem with rfl
          exact Or.inr ⟨rfl, hx⟩
      · rw [if_neg hx] at hin
        exact Or.inl hin
    · refine Or.inr ⟨h1, ?_⟩
      unfold checkRemove at h2
      by_cases hx : acc.1.has_event_handler hd x = true
      · rw [if_pos hx] at h2
        exact has_mono_remove _ _ _ _ _ h2
      · rwa [if_neg hx] at h2

/-- A `checkRemove` step on an event leaves the query for that event
answering false, whether or not a removal was performed. -/
theorem checkRemove_clears_self (hd : Nat)
    (acc : Engine × List (Nat × CallableEventWithFilter))
    (e : CallableEventWithFilter) :
    (checkRemove hd acc e).1.has_event_handler hd e = false := by
  unfold checkRemove
  by_cases hx : acc.1.has_event_handler hd e = true
  · rw [if_pos hx]
    exact has_after_remove_self _ _ _
  · rw [if_neg hx]
    exact Bool.eq_false_iff.mpr hx

/-- Claim C5: `remove()` is a silent no-op when either weak reference is
dead (engine unchanged, no engine calls); when live, every
`remove_event_handler` invocation it performs is for the resolved handler
and an event for which `has_event_handler` answered true; and a second
`remove()` in succession performs no engine removal at all. -/
theorem claim_C5 (h : RemovableEventHandle) (eng : Engine) :
    (h.handler = none ∨ h.engine_alive = false → h.remove eng = (eng, [])) ∧
    (∀ hd : Nat, h.handler = some hd →
      ∀ entry ∈ (h.remove eng).2,
        entry.1 = hd ∧ eng.has_event_handler hd entry.2 = true) ∧
    h.remove (h.remove eng).1 = ((h.remove eng).1, []) := by
  obtain ⟨idt, hopt, alive⟩ := h
  cases hopt with
  | none =>
    refine ⟨fun _ => rfl, fun hd hsome => ?_, rfl⟩
    exact absurd hsome (by simp)
  | some hd0 =>
    cases alive with
    | false =>
      refine ⟨fun _ => rfl, fun hd _ entry he => ?_, rfl⟩
      exact absurd he (List.not_mem_nil entry)
    | true =>
      refine ⟨fun hdead => ?_, fun hd hsome entry he => ?_, ?_⟩
      · rcases hdead with hl | hr
        · exact absurd hl (by simp)
        · exact absurd hr (by simp)
      · obtain rfl : hd0 = hd := by injection hsome
        cases idt with
        | single e =>
          simp only [RemovableEventHandle.remove] at he
          unfold checkRemove at he
          by_cases hx : eng.has_event_handler hd0 e = true
          · rw [if_pos hx] at he
            rcases List.mem_singleton.mp he with rfl
            exact ⟨rfl, hx⟩
          · rw [if_neg hx] at he
            exact absurd he (List.not_mem_nil entry)
        | group l =>
          simp only [RemovableEventHandle.remove] at he
          rcases foldl_checkRemove_log hd0 l (eng, []) entry he with hin | hgood
          · exact absurd hin (List.not_mem_nil entry)
          · exact hgood
      · cases idt with
        | single e =>
          show checkRemove hd0 ((checkRemove hd0 (eng, []) e).1, []) e =
            ((checkRemove hd0 (eng, []) e).1, [])
          have hfalse : (checkRemove hd0 (eng, []) e).1.has_event_handler hd0 e = false :=
            checkRemove_clears_self hd0 (eng, []) e
          generalize (checkRemove hd0 (eng, []) e).1 = eng1 at hfalse ⊢
          unfold checkRemove
          rw [if_neg (by rw [hfalse]; exact Bool.false_ne_true)]
        | group l =>
          show l.foldl (checkRemove hd0) ((l.foldl (checkRemove hd0) (eng, [])).1, []) = _
          exact foldl_checkRemove_noop hd0 l _
            (fun e he => foldl_checkRemove_clears hd0 l (eng, []) e he)

/-- Witness for claim C5: a dead handle's removal is a no-op on the sample
engine, and a live handle's second removal performs no engine call. -/
theorem claim_C5_witness :
    deadHandle.remove engineA = (engineA, []) ∧
    liveHandle.remove (liveHandle.remove engineA).1 =
      ((liveHandle.remove engineA).1, []) :=
  ⟨(claim_C5 deadHandle engineA).1 (Or.inl rfl),
    (claim_C5 liveHandle engineA).2.2⟩

/-- Witness for claim C7 on the events `STARTED`, `COMPLETED`, and
`ITERATION_STARTED`. -/
theorem claim_C7_witness :
    (∃ g : List CallableEventWithFilter,
      (do
        let l1 ← Events.STARTED.orOp (.event Events.COMPLETED)
        EventsList.orOp l1 (.event Events.ITERATION_STARTED)) = .ok g ∧
      g = [Events.STARTED, Events.COMPLETED, Events.ITERATION_STARTED] ∧
      g.length = 3 ∧
      g[0]? = some Events.STARTED ∧ g[1]? = some Events.COMPLETED ∧
      g[2]? = some Events.ITERATION_STARTED) ∧
    (∀ (l : List CallableEventWithFilter) (ty : String),
      ∃ msg, EventsList.appendArg l (.nonEvent ty) =
        .error (.InvalidArgument msg)) :=
  claim_C7 Events.STARTED Events.COMPLETED Events.ITERATION_STARTED

/-- Witness for claim C8 on `ITERATION_COMPLETED`: comparison against an
integer-typed value errors, comparison against the name string holds. -/
theorem claim_C8_witness :
    Events.ITERATION_COMPLETED.eq (.other "int") = .error .IncomparableType ∧
    Events.ITERATION_COMPLETED.eq (.str "ITERATION_COMPLETED") = .ok true :=
  ⟨(claim_C8 Events.ITERATION_COMPLETED).1 "int",
    ((claim_C8 Events.ITERATION_COMPLETED).2.2 "ITERATION_COMPLETED").mpr rfl⟩

/-- Witness for claim C10 on `ITERATION_STARTED`: it equals its NAME string
and does not equal its value string. -/
theorem claim_C10_witness :
    Events.ITERATION_STARTED.eq (.str "ITERATION_STARTED") = .ok true ∧
    Events.ITERATION_STARTED.eq (.str "iteration_started") = .ok false :=
  ⟨((claim_C10 .ITERATION_STARTED).1 "ITERATION_STARTED").mpr rfl,
    (claim_C10 .ITERATION_STARTED).2⟩
